import Mathlib

/-!
Shallow embedding of `src/beverage_stock.py` (BeverageStock): the `Produto`
entity, the `CalculadoraCusto` pure formulas and the `Estoque` ledger, with
theorems checking the documented behaviour against this embedding.

Modelling conventions: Python `float` inputs of the cost formulas are
modelled as rationals (ideal real arithmetic), Python `int` as `Int`;
`math.ceil` is `Int.ceil`; a `raise ValueError(...)` is an `Except.error`
carrying exactly the data its message interpolates; each `print(...)` line
of the report is one `String` in a list. Python object mutation through the
reference returned by `_buscar_produto` becomes an update of the first
name-matching entry of the product list.
-/

/-- Enumeration `TipoBebida` (`beverage_stock.py`, lines 13-19): the two
supported beverage kinds. -/
inductive TipoBebida
  | CERVEJA
  | REFRIGERANTE
  deriving DecidableEq

/-- Rendering of `TipoBebida.name` as Python's `Enum.name` produces it. -/
def TipoBebida.nomeStr : TipoBebida → String
  | .CERVEJA => "CERVEJA"
  | .REFRIGERANTE => "REFRIGERANTE"

/-- Entity `Produto` (lines 22-68): one stock-keeping unit with its
logistics cost data and its running stock count `quantidade_estoque`. -/
structure Produto where
  nome : String
  tipo : TipoBebida
  custo_manutencao : ℚ
  custo_pedido : ℚ
  preco_unitario : ℚ
  quantidade_estoque : ℤ
  deriving DecidableEq

/-- Constructor `Produto.__init__` (lines 31-61): stores the five arguments
and sets `quantidade_estoque` to zero. -/
def Produto.init (nome : String) (tipo : TipoBebida) (custo_manutencao : ℚ)
    (custo_pedido : ℚ) (preco_unitario : ℚ) : Produto :=
  ⟨nome, tipo, custo_manutencao, custo_pedido, preco_unitario, 0⟩

/-- Method `Produto.__str__` (lines 63-68): the formatted summary string
`f"{self.nome} ({self.tipo.name}) - Estoque: {self.quantidade_estoque}"`. -/
def Produto.toStr (p : Produto) : String :=
  p.nome ++ " (" ++ p.tipo.nomeStr ++ ") - Estoque: " ++ toString p.quantidade_estoque

/-- Errors raised by the program: each constructor models one of the
`raise ValueError(...)` sites, carrying the data its message interpolates.
`produtoNaoEncontrado` is "Produto '<nome>' não encontrado" (lines 184 and
202), `estoqueInsuficiente` is "Estoque insuficiente! Disponível: <n>"
(line 200), and `custoManutencaoZero` is "Custo de manutenção não pode ser
zero" (line 136). -/
inductive Err
  | produtoNaoEncontrado (nome : String)
  | estoqueInsuficiente (disponivel : ℤ)
  | custoManutencaoZero
  deriving DecidableEq

/-- Static method `CalculadoraCusto.calcular_estoque_seguranca`
(lines 80-96): `math.ceil(desvio_padrao * dias_seguranca *
demanda_media_diaria)`. -/
def calcular_estoque_seguranca (desvio_padrao : ℚ) (dias_seguranca : ℤ)
    (demanda_media_diaria : ℚ) : ℤ :=
  ⌈desvio_padrao * (dias_seguranca : ℚ) * demanda_media_diaria⌉

/-- Static method `CalculadoraCusto.determinar_ponto_pedido` (lines 98-115):
`math.ceil(lead_time_dias * demanda_media_diaria + estoque_seguranca)`. -/
def determinar_ponto_pedido (lead_time_dias : ℤ) (demanda_media_diaria : ℚ)
    (estoque_seguranca : ℤ) : ℤ :=
  ⌈(lead_time_dias : ℚ) * demanda_media_diaria + (estoque_seguranca : ℚ)⌉

/-- Computable ceiling of the square root of a rational, the value
`math.ceil(math.sqrt(q))` computes in ideal arithmetic; proved equal to
`⌈Real.sqrt q⌉` below. -/
def ceilSqrtRat (q : ℚ) : ℤ :=
  if (Nat.sqrt ⌈q⌉.toNat : ℚ) * (Nat.sqrt ⌈q⌉.toNat : ℚ) < q then
    (Nat.sqrt ⌈q⌉.toNat : ℤ) + 1
  else
    (Nat.sqrt ⌈q⌉.toNat : ℤ)

/-- Static method `CalculadoraCusto.calcular_lote_economico` (lines 117-139):
raises when `custo_manutencao == 0`, otherwise
`math.ceil(math.sqrt((2 * demanda_anual * custo_pedido) / custo_manutencao))`. -/
def calcular_lote_economico (demanda_anual : ℚ) (custo_pedido : ℚ)
    (custo_manutencao : ℚ) : Except Err ℤ :=
  if custo_manutencao = 0 then .error .custoManutencaoZero
  else .ok (ceilSqrtRat ((2 * demanda_anual * custo_pedido) / custo_manutencao))

/-- Ledger `Estoque` (lines 142-247): a display name and the ordered product
registry. The `calculadora` field of the source is stateless and carries no
data, so it is not represented. -/
structure Estoque where
  nome : String
  produtos : List Produto
  deriving DecidableEq

/-- Constructor `Estoque.__init__` (lines 154-161): display name, empty
registry. -/
def Estoque.init (nome_estoque : String) : Estoque :=
  ⟨nome_estoque, []⟩

/-- Method `Estoque._buscar_produto` (lines 237-247): linear scan returning
the first product whose `nome` equals the argument, else `None`. -/
def Estoque.buscar_produto (e : Estoque) (nome : String) : Option Produto :=
  e.produtos.find? (fun p => p.nome == nome)

/-- Method `Estoque.adicionar_produto` (lines 163-169): appends the product
to the registry (the confirmation `print` is a side effect only). -/
def Estoque.adicionar_produto (e : Estoque) (p : Produto) : Estoque :=
  ⟨e.nome, e.produtos ++ [p]⟩

/-- Update of the first product named `nome` in the list by `f`, leaving
every other entry untouched: the pure rendering of mutating the object
`_buscar_produto` returns. -/
def atualizarPrimeiro (ps : List Produto) (nome : String)
    (f : Produto → Produto) : List Produto :=
  match ps with
  | [] => []
  | p :: rest =>
    if p.nome = nome then f p :: rest else p :: atualizarPrimeiro rest nome f

/-- Method `Estoque.entrada_estoque` (lines 171-184): on a found product,
`produto.quantidade_estoque += quantidade`; otherwise raises
"Produto ... não encontrado". No guard on the sign of `quantidade`. -/
def Estoque.entrada_estoque (e : Estoque) (nome_produto : String)
    (quantidade : ℤ) : Except Err Estoque :=
  match e.buscar_produto nome_produto with
  | some _ => .ok ⟨e.nome, atualizarPrimeiro e.produtos nome_produto
      (fun p => { p with quantidade_estoque := p.quantidade_estoque + quantidade })⟩
  | none => .error (.produtoNaoEncontrado nome_produto)

/-- Method `Estoque.saida_estoque` (lines 186-202): on a found product with
`quantidade_estoque >= quantidade`, subtracts; with less stock raises
"Estoque insuficiente! Disponível: <estoque atual>"; on no product raises
"Produto ... não encontrado". -/
def Estoque.saida_estoque (e : Estoque) (nome_produto : String)
    (quantidade : ℤ) : Except Err Estoque :=
  match e.buscar_produto nome_produto with
  | some produto =>
    if quantidade ≤ produto.quantidade_estoque then
      .ok ⟨e.nome, atualizarPrimeiro e.produtos nome_produto
        (fun p => { p with quantidade_estoque := p.quantidade_estoque - quantidade })⟩
    else
      .error (.estoqueInsuficiente produto.quantidade_estoque)
  | none => .error (.produtoNaoEncontrado nome_produto)

/-- Method `Estoque.verificar_alertas` (lines 204-217): `True` when the
product is found and its stock is at most `ponto_pedido` (the alert `print`
is a side effect only); `False` otherwise, silently when not found. -/
def Estoque.verificar_alertas (e : Estoque) (ponto_pedido : ℤ)
    (nome_produto : String) : Bool :=
  match e.buscar_produto nome_produto with
  | some produto => decide (produto.quantidade_estoque ≤ ponto_pedido)
  | none => false

/-- Sixty-character separator line `'='*60` of the report. -/
def linhaSeparadora : String :=
  String.mk (List.replicate 60 '=')

/-- Method `Estoque.relatorio_estoque` (lines 219-235), as the list of
printed lines: three header lines, then either the distinct
"Nenhum produto cadastrado." line for an empty registry, or one `•` line
per registered product in registry order followed by the footer. -/
def Estoque.relatorio_estoque (e : Estoque) : List String :=
  ("\n" ++ linhaSeparadora) ::
  ("RELATÓRIO DE ESTOQUE: " ++ e.nome) ::
  linhaSeparadora ::
  (if e.produtos = [] then
    ["Nenhum produto cadastrado."]
  else
    e.produtos.map (fun p => "• " ++ p.toStr) ++ [linhaSeparadora ++ "\n"])

/-- Syntax of one ledger operation, for reasoning about arbitrary call
sequences. `registrar` carries the `Produto.__init__` arguments of the
product being registered. -/
inductive Op
  | registrar (nome : String) (tipo : TipoBebida)
      (custo_manutencao custo_pedido preco_unitario : ℚ)
  | entrada (nome_produto : String) (quantidade : ℤ)
  | saida (nome_produto : String) (quantidade : ℤ)
  | verificar (ponto_pedido : ℤ) (nome_produto : String)
  | relatorio
  deriving DecidableEq

/-- State transition of one operation: a raising call leaves the ledger
exactly as it was (the exception propagates before any assignment), and the
read-only calls `verificar_alertas` / `relatorio_estoque` assign nothing. -/
def aplicar (e : Estoque) (o : Op) : Estoque :=
  match o with
  | .registrar nome tipo cm cp pu => e.adicionar_produto (Produto.init nome tipo cm cp pu)
  | .entrada nome q =>
    match e.entrada_estoque nome q with
    | .ok e' => e'
    | .error _ => e
  | .saida nome q =>
    match e.saida_estoque nome q with
    | .ok e' => e'
    | .error _ => e
  | .verificar _ _ => e
  | .relatorio => e

/-- Execution of a sequence of ledger operations from a starting state. -/
def executar (e : Estoque) (ops : List Op) : Estoque :=
  ops.foldl aplicar e

/-- Predicate selecting operation sequences whose stock receipts all carry a
nonnegative quantity (`entrada_estoque` has no sign guard in the source). -/
def Op.entradaNaoNegativa : Op → Bool
  | .entrada _ q => decide (0 ≤ q)
  | _ => true

/-- Invariant of interest for the registry: every registered product holds a
nonnegative stock count. -/
def invNaoNegativo (e : Estoque) : Prop :=
  ∀ p ∈ e.produtos, 0 ≤ p.quantidade_estoque

/-- Frame relation between a ledger state `e` and a successor state `e'` for
a call naming `nome`: the display name is unchanged and the registry is
either identical or differs from the original only in the stock count of the
first product whose name equals `nome`, with length and order preserved. -/
def framePreserva (e e' : Estoque) (nome : String) : Prop :=
  e'.nome = e.nome ∧
  (e'.produtos = e.produtos ∨
    ∃ pre p st post,
      (∀ x ∈ pre, x.nome ≠ nome) ∧ p.nome = nome ∧
      e.produtos = pre ++ p :: post ∧
      e'.produtos = pre ++ { p with quantidade_estoque := st } :: post)

/-- Concrete product used to instantiate the theorems on explicit inputs:
registered data of `Produto.init "A" ...` after a receipt of 10 units. -/
def produtoA : Produto :=
  ⟨"A", TipoBebida.CERVEJA, 1, 2, 3, 10⟩

/-- Concrete one-product ledger used to instantiate the theorems. -/
def estoqueD : Estoque :=
  ⟨"Deposito", [produtoA]⟩

/-- Decomposition of `atualizarPrimeiro`: either no product matches (and the
list is unchanged), or the list splits around the first match, whose entry
alone is rewritten by `f`. -/
theorem atualizarPrimeiro_decomp (ps : List Produto) (nome : String)
    (f : Produto → Produto) :
    (ps.find? (fun p => p.nome == nome) = none ∧ atualizarPrimeiro ps nome f = ps) ∨
    ∃ pre p post, (∀ x ∈ pre, x.nome ≠ nome) ∧ p.nome = nome ∧
      ps.find? (fun p => p.nome == nome) = some p ∧
      ps = pre ++ p :: post ∧
      atualizarPrimeiro ps nome f = pre ++ f p :: post := by
  induction ps with
  | nil => exact Or.inl ⟨rfl, rfl⟩
  | cons a rest ih =>
    by_cases h : a.nome = nome
    · refine Or.inr ⟨[], a, rest, by simp, h, ?_, by simp, ?_⟩
      · simp [List.find?_cons, h]
      · simp [atualizarPrimeiro, h]
    · have hb : (a.nome == nome) = false := beq_eq_false_iff_ne.mpr h
      rcases ih with ⟨h1, h2⟩ | ⟨pre, p, post, hpre, hp, hfind, hsplit, hupd⟩
      · refine Or.inl ⟨?_, ?_⟩
        · simp [List.find?_cons, hb, h1]
        · simp [atualizarPrimeiro, h, h2]
      · refine Or.inr ⟨a :: pre, p, post, ?_, hp, ?_, ?_, ?_⟩
        · intro x hx
          rcases List.mem_cons.mp hx with rfl | hx
          · exact h
          · exact hpre x hx
        · simp [List.find?_cons, hb, hfind]
        · simp [hsplit]
        · simp [atualizarPrimeiro, h, hupd]

/-- Lookup after `atualizarPrimeiro` with a name-preserving update: the first
match is found again, with `f` applied. -/
theorem find?_atualizarPrimeiro (ps : List Produto) (nome : String)
    (f : Produto → Produto) (hf : ∀ p, (f p).nome = p.nome) :
    (atualizarPrimeiro ps nome f).find? (fun p => p.nome == nome)
      = (ps.find? (fun p => p.nome == nome)).map f := by
  induction ps with
  | nil => rfl
  | cons a rest ih =>
    by_cases h : a.nome = nome
    · simp [atualizarPrimeiro, h, List.find?_cons, hf a]
    · have hb : (a.nome == nome) = false := beq_eq_false_iff_ne.mpr h
      simp [atualizarPrimeiro, h, List.find?_cons, hb, ih]

/-- Cancellation: a pair of first-match updates whose composition is the
identity gives back the original registry. -/
theorem atualizarPrimeiro_cancel (ps : List Produto) (nome : String)
    (f g : Produto → Produto) (hf : ∀ p, (f p).nome = p.nome)
    (hgf : ∀ p, g (f p) = p) :
    atualizarPrimeiro (atualizarPrimeiro ps nome f) nome g = ps := by
  induction ps with
  | nil => rfl
  | cons a rest ih =>
    by_cases h : a.nome = nome
    · have h2 : (f a).nome = nome := by rw [hf a]; exact h
      simp [atualizarPrimeiro, h, h2, hgf a]
    · simp [atualizarPrimeiro, h, ih]

/-- Agreement of the computable `ceilSqrtRat` with the ceiling of the real
square root on nonnegative rationals. -/
theorem ceilSqrtRat_eq (q : ℚ) (hq : 0 ≤ q) :
    ceilSqrtRat q = ⌈Real.sqrt ((q : ℝ))⌉ := by
  unfold ceilSqrtRat
  have h0 : (0:ℤ) ≤ ⌈q⌉ := Int.ceil_nonneg hq
  have hcz : ((⌈q⌉.toNat : ℤ)) = ⌈q⌉ := Int.toNat_of_nonneg h0
  set c : ℕ := ⌈q⌉.toNat with hc
  set n : ℕ := Nat.sqrt c with hn
  have hqc : q ≤ (c : ℚ) := by
    have h1 := Int.le_ceil q
    rw [← hcz] at h1
    exact_mod_cast h1
  have hcq1 : (c : ℚ) < q + 1 := by
    have h2 := Int.ceil_lt_add_one q
    rw [← hcz] at h2
    exact_mod_cast h2
  have hn1 : n * n ≤ c := hn ▸ Nat.sqrt_le c
  have hn2 : c < (n + 1) * (n + 1) := hn ▸ Nat.lt_succ_sqrt c
  have hqc' : (q : ℝ) ≤ (c : ℝ) := by exact_mod_cast hqc
  have hcq1' : (c : ℝ) < (q : ℝ) + 1 := by exact_mod_cast hcq1
  have hn1' : (n : ℝ) * (n : ℝ) ≤ (c : ℝ) := by exact_mod_cast hn1
  have hn2' : (c : ℝ) < ((n : ℝ) + 1) * ((n : ℝ) + 1) := by exact_mod_cast hn2
  by_cases h : (n : ℚ) * (n : ℚ) < q
  · rw [if_pos h]
    have h' : (n : ℝ) * (n : ℝ) < (q : ℝ) := by exact_mod_cast h
    symm
    rw [Int.ceil_eq_iff]
    constructor
    · push_cast
      have hlt : (n : ℝ) < Real.sqrt (q : ℝ) := by
        rw [Real.lt_sqrt (by positivity)]
        nlinarith
      linarith
    · push_cast
      rw [Real.sqrt_le_left (by positivity)]
      nlinarith
  · rw [if_neg h]
    push_neg at h
    have h' : (q : ℝ) ≤ (n : ℝ) * (n : ℝ) := by exact_mod_cast h
    symm
    rw [Int.ceil_eq_iff]
    constructor
    · push_cast
      rcases Nat.eq_zero_or_pos n with hn0 | hn0
      · rw [hn0]
        have := Real.sqrt_nonneg ((q : ℚ) : ℝ)
        push_cast
        linarith
      · have hge1 : (1 : ℝ) ≤ (n : ℝ) := by exact_mod_cast hn0
        have hlt : ((n : ℝ) - 1) < Real.sqrt (q : ℝ) := by
          rw [Real.lt_sqrt (by linarith)]
          nlinarith
        linarith
    · push_cast
      rw [Real.sqrt_le_left (by positivity)]
      nlinarith

/-- Preservation of `invNaoNegativo` by one operation, provided a stock
receipt never carries a negative quantity. -/
theorem inv_aplicar (e : Estoque) (o : Op) (he : invNaoNegativo e)
    (ho : o.entradaNaoNegativa = true) : invNaoNegativo (aplicar e o) := by
  cases o with
  | registrar nome tipo cm cp pu =>
    intro p hp
    simp only [aplicar, Estoque.adicionar_produto] at hp
    rcases List.mem_append.mp hp with hp | hp
    · exact he p hp
    · rcases List.mem_singleton.mp hp with rfl
      simp [Produto.init]
  | entrada nome q =>
    have hq : 0 ≤ q := by simpa [Op.entradaNaoNegativa] using ho
    simp only [aplicar, Estoque.entrada_estoque, Estoque.buscar_produto]
    rcases atualizarPrimeiro_decomp e.produtos nome
        (fun p => { p with quantidade_estoque := p.quantidade_estoque + q }) with
      ⟨h1, _⟩ | ⟨pre, p0, post, _, _, hfind, hsplit, hupd⟩
    · rw [h1]
      exact he
    · rw [hfind]
      intro p hp
      rw [hupd] at hp
      rcases List.mem_append.mp hp with hp | hp
      · exact he p (hsplit ▸ List.mem_append_left _ hp)
      · rcases List.mem_cons.mp hp with rfl | hp
        · have h0 := he p0 (hsplit ▸ List.mem_append_right _ (List.mem_cons_self _ _))
          simpa using by linarith
        · exact he p (hsplit ▸ List.mem_append_right _ (List.mem_cons_of_mem _ hp))
  | saida nome q =>
    simp only [aplicar, Estoque.saida_estoque, Estoque.buscar_produto]
    rcases atualizarPrimeiro_decomp e.produtos nome
        (fun p => { p with quantidade_estoque := p.quantidade_estoque - q }) with
      ⟨h1, _⟩ | ⟨pre, p0, post, _, _, hfind, hsplit, hupd⟩
    · rw [h1]
      exact he
    · rw [hfind]
      dsimp only
      by_cases hle : q ≤ p0.quantidade_estoque
      · rw [if_pos hle]
        intro p hp
        rw [hupd] at hp
        rcases List.mem_append.mp hp with hp | hp
        · exact he p (hsplit ▸ List.mem_append_left _ hp)
        · rcases List.mem_cons.mp hp with rfl | hp
          · simpa using by linarith
          · exact he p (hsplit ▸ List.mem_append_right _ (List.mem_cons_of_mem _ hp))
      · rw [if_neg hle]
        exact he
  | verificar pp nome => exact he
  | relatorio => exact he

/-- Preservation of `invNaoNegativo` along a whole operation sequence. -/
theorem inv_executar (ops : List Op) : ∀ e : Estoque, invNaoNegativo e →
    (∀ o ∈ ops, o.entradaNaoNegativa = true) → invNaoNegativo (executar e ops) := by
  induction ops with
  | nil => exact fun e he _ => he
  | cons o rest ih =>
    intro e he hops
    exact ih (aplicar e o) (inv_aplicar e o he (hops o (List.mem_cons_self o rest)))
      (fun x hx => hops x (List.mem_cons_of_mem o hx))

/-- C1 (counterexample): the property fails as stated for arbitrary
arguments. Starting from a fresh ledger, registering a product and then
calling `entrada_estoque` with quantity `-1` (the source has no sign guard)
leaves the registered product with stock `-1`, which is negative. -/
theorem c1_contraexemplo :
    (executar (Estoque.init "Deposito")
        [Op.registrar "A" TipoBebida.CERVEJA 0 0 0, Op.entrada "A" (-1)]).produtos.map
      Produto.quantidade_estoque = [-1] ∧
    ¬ invNaoNegativo (executar (Estoque.init "Deposito")
        [Op.registrar "A" TipoBebida.CERVEJA 0 0 0, Op.entrada "A" (-1)]) := by
  refine ⟨by decide, fun hinv => ?_⟩
  have h := hinv ⟨"A", TipoBebida.CERVEJA, 0, 0, 0, -1⟩ (by decide)
  exact absurd h (by decide)

/-- C1 (amended): every product constructed by `Produto.__init__` starts
with stock zero, and after any sequence of ledger operations in which every
`entrada_estoque` call carries a nonnegative quantity, no registered
product's `quantidade_estoque` is negative. -/
theorem c1_estoque_nunca_negativo :
    (∀ nome tipo cm cp pu, (Produto.init nome tipo cm cp pu).quantidade_estoque = 0) ∧
    ∀ (nome_estoque : String) (ops : List Op),
      (∀ o ∈ ops, o.entradaNaoNegativa = true) →
      invNaoNegativo (executar (Estoque.init nome_estoque) ops) := by
  refine ⟨fun _ _ _ _ _ => rfl, fun ne ops hops => ?_⟩
  refine inv_executar ops (Estoque.init ne) ?_ hops
  intro p hp
  exact absurd hp (List.not_mem_nil p)

/-- C1 (witness): the amended theorem applied to a concrete run of
register, receive 5, issue 3. -/
theorem c1_testemunha :
    (∀ o ∈ [Op.registrar "A" TipoBebida.CERVEJA 1 2 3, Op.entrada "A" 5, Op.saida "A" 3],
      o.entradaNaoNegativa = true) ∧
    invNaoNegativo (executar (Estoque.init "Deposito")
      [Op.registrar "A" TipoBebida.CERVEJA 1 2 3, Op.entrada "A" 5, Op.saida "A" 3]) :=
  ⟨by decide, c1_estoque_nunca_negativo.2 "Deposito"
    [Op.registrar "A" TipoBebida.CERVEJA 1 2 3, Op.entrada "A" 5, Op.saida "A" 3]
    (by decide)⟩

/-- C2: when `saida_estoque` resolves `nome` to product `p` (the first
registered product of that name), a request for more than `p`'s current
stock raises `estoqueInsuficiente` carrying exactly the available quantity
and leaves the ledger state unchanged; a request for at most the current
stock succeeds and the product's stock decreases by exactly the quantity. -/
theorem c2_saida_insuficiente :
    ∀ (e : Estoque) (nome : String) (p : Produto) (q : ℤ),
      e.buscar_produto nome = some p →
      (p.quantidade_estoque < q →
        e.saida_estoque nome q = .error (.estoqueInsuficiente p.quantidade_estoque) ∧
        aplicar e (Op.saida nome q) = e) ∧
      (q ≤ p.quantidade_estoque →
        ∃ e', e.saida_estoque nome q = .ok e' ∧
          e'.buscar_produto nome =
            some { p with quantidade_estoque := p.quantidade_estoque - q }) := by
  intro e nome p q hb
  have hb' : e.produtos.find? (fun x => x.nome == nome) = some p := hb
  refine ⟨fun hlt => ?_, fun hle => ?_⟩
  · have hnle : ¬ q ≤ p.quantidade_estoque := not_le.mpr hlt
    exact ⟨by simp [Estoque.saida_estoque, Estoque.buscar_produto, hb', hnle],
      by simp [aplicar, Estoque.saida_estoque, Estoque.buscar_produto, hb', hnle]⟩
  · refine ⟨⟨e.nome, atualizarPrimeiro e.produtos nome
        (fun x => { x with quantidade_estoque := x.quantidade_estoque - q })⟩,
      by simp [Estoque.saida_estoque, Estoque.buscar_produto, hb', hle], ?_⟩
    simp only [Estoque.buscar_produto]
    rw [find?_atualizarPrimeiro e.produtos nome
      (fun x => { x with quantidade_estoque := x.quantidade_estoque - q })
      (fun _ => rfl), hb']
    rfl

/-- C2 (witness): issuing 12 from the concrete ledger holding 10 units. -/
theorem c2_testemunha :
    estoqueD.buscar_produto "A" = some produtoA ∧
    ((produtoA.quantidade_estoque < 12 →
      estoqueD.saida_estoque "A" 12 =
        .error (.estoqueInsuficiente produtoA.quantidade_estoque) ∧
      aplicar estoqueD (Op.saida "A" 12) = estoqueD) ∧
    ((12:ℤ) ≤ produtoA.quantidade_estoque →
      ∃ e', estoqueD.saida_estoque "A" 12 = .ok e' ∧
        e'.buscar_produto "A" =
          some { produtoA with
            quantidade_estoque := produtoA.quantidade_estoque - 12 })) :=
  ⟨by decide, c2_saida_insuficiente estoqueD "A" produtoA 12 (by decide)⟩

/-- C3: for nonnegative annual demand and order cost,
`calcular_lote_economico` raises the documented error exactly when the
holding cost is zero, and for positive holding cost returns the ceiling of
the real square root of `2 * demanda_anual * custo_pedido / custo_manutencao`. -/
theorem c3_lote_economico :
    ∀ (demanda_anual custo_pedido custo_manutencao : ℚ),
      0 ≤ demanda_anual → 0 ≤ custo_pedido →
      (custo_manutencao = 0 →
        calcular_lote_economico demanda_anual custo_pedido custo_manutencao =
          .error .custoManutencaoZero) ∧
      (0 < custo_manutencao →
        calcular_lote_economico demanda_anual custo_pedido custo_manutencao =
          .ok ⌈Real.sqrt (((2 * demanda_anual * custo_pedido / custo_manutencao : ℚ) : ℝ))⌉) := by
  intro D c h hD hc
  refine ⟨fun h0 => by simp [calcular_lote_economico, h0], fun hpos => ?_⟩
  rw [calcular_lote_economico, if_neg (ne_of_gt hpos)]
  congr 1
  refine ceilSqrtRat_eq _ ?_
  have h2 : (0:ℚ) ≤ 2 * D * c := by positivity
  exact div_nonneg h2 hpos.le

/-- C3 (witness): the reference scenario, demand 18000, order cost 150,
holding cost 6. -/
theorem c3_testemunha :
    (0:ℚ) ≤ 18000 ∧ (0:ℚ) ≤ 150 ∧
    ((0:ℚ) < 6 →
      calcular_lote_economico 18000 150 6 =
        .ok ⌈Real.sqrt (((2 * 18000 * 150 / 6 : ℚ) : ℝ))⌉) :=
  ⟨by norm_num, by norm_num,
    fun h6 => (c3_lote_economico 18000 150 6 (by norm_num) (by norm_num)).2 h6⟩

/-- C4: for nonnegative inputs, `calcular_estoque_seguranca` returns the
ceiling of `desvio_padrao * dias_seguranca * demanda_media_diaria`; in
particular the result is nonnegative and at least the untruncated product. -/
theorem c4_estoque_seguranca :
    ∀ (desvio_padrao : ℚ) (dias_seguranca : ℤ) (demanda_media_diaria : ℚ),
      0 ≤ desvio_padrao → 0 ≤ dias_seguranca → 0 ≤ demanda_media_diaria →
      calcular_estoque_seguranca desvio_padrao dias_seguranca demanda_media_diaria =
        ⌈desvio_padrao * (dias_seguranca : ℚ) * demanda_media_diaria⌉ ∧
      0 ≤ calcular_estoque_seguranca desvio_padrao dias_seguranca demanda_media_diaria ∧
      desvio_padrao * (dias_seguranca : ℚ) * demanda_media_diaria ≤
        (calcular_estoque_seguranca desvio_padrao dias_seguranca demanda_media_diaria : ℚ) := by
  intro σ d μ hσ hd hμ
  have hd' : (0:ℚ) ≤ (d : ℚ) := by exact_mod_cast hd
  have hprod : 0 ≤ σ * (d:ℚ) * μ := mul_nonneg (mul_nonneg hσ hd') hμ
  exact ⟨rfl, Int.ceil_nonneg hprod, Int.le_ceil _⟩

/-- C4 (witness): the reference scenario, standard deviation 1/5, 7 service
days, average daily demand 50. -/
theorem c4_testemunha :
    (0:ℚ) ≤ 1/5 ∧ (0:ℤ) ≤ 7 ∧ (0:ℚ) ≤ 50 ∧
    (calcular_estoque_seguranca (1/5) 7 50 = ⌈(1/5 : ℚ) * ((7:ℤ) : ℚ) * 50⌉ ∧
      0 ≤ calcular_estoque_seguranca (1/5) 7 50 ∧
      (1/5 : ℚ) * ((7:ℤ) : ℚ) * 50 ≤ (calcular_estoque_seguranca (1/5) 7 50 : ℚ)) :=
  ⟨by norm_num, by norm_num, by norm_num,
    c4_estoque_seguranca (1/5) 7 50 (by norm_num) (by norm_num) (by norm_num)⟩

/-- C5: for nonnegative inputs, `determinar_ponto_pedido` returns the
ceiling of `lead_time_dias * demanda_media_diaria + estoque_seguranca`, and
the reorder point is never below the safety stock. -/
theorem c5_ponto_pedido :
    ∀ (lead_time_dias : ℤ) (demanda_media_diaria : ℚ) (estoque_seguranca : ℤ),
      0 ≤ lead_time_dias → 0 ≤ demanda_media_diaria → 0 ≤ estoque_seguranca →
      determinar_ponto_pedido lead_time_dias demanda_media_diaria estoque_seguranca =
        ⌈(lead_time_dias : ℚ) * demanda_media_diaria + (estoque_seguranca : ℚ)⌉ ∧
      estoque_seguranca ≤
        determinar_ponto_pedido lead_time_dias demanda_media_diaria estoque_seguranca := by
  intro L μ S hL hμ hS
  refine ⟨rfl, ?_⟩
  have hL' : (0:ℚ) ≤ (L : ℚ) := by exact_mod_cast hL
  have h1 : ((S:ℤ) : ℚ) ≤ (L:ℚ) * μ + (S:ℚ) := by nlinarith
  calc S = ⌈((S:ℤ) : ℚ)⌉ := (Int.ceil_intCast S).symm
    _ ≤ ⌈(L:ℚ) * μ + (S:ℚ)⌉ := Int.ceil_mono h1

/-- C5 (witness): the reference scenario, lead time 5, demand 50, safety
stock 70. -/
theorem c5_testemunha :
    (0:ℤ) ≤ 5 ∧ (0:ℚ) ≤ 50 ∧ (0:ℤ) ≤ 70 ∧
    (determinar_ponto_pedido 5 50 70 = ⌈((5:ℤ) : ℚ) * 50 + ((70:ℤ) : ℚ)⌉ ∧
      (70:ℤ) ≤ determinar_ponto_pedido 5 50 70) :=
  ⟨by norm_num, by norm_num, by norm_num,
    c5_ponto_pedido 5 50 70 (by norm_num) (by norm_num) (by norm_num)⟩

/-- C6: for a name carried by no registered product, both `entrada_estoque`
and `saida_estoque` raise `produtoNaoEncontrado`, whatever the quantity. -/
theorem c6_nao_encontrado :
    ∀ (e : Estoque) (nome : String) (q : ℤ),
      (∀ p ∈ e.produtos, p.nome ≠ nome) →
      e.entrada_estoque nome q = .error (.produtoNaoEncontrado nome) ∧
      e.saida_estoque nome q = .error (.produtoNaoEncontrado nome) := by
  intro e nome q hnp
  have hb : e.produtos.find? (fun p => p.nome == nome) = none := by
    rw [List.find?_eq_none]
    intro x hx
    simpa using hnp x hx
  exact ⟨by simp [Estoque.entrada_estoque, Estoque.buscar_produto, hb],
    by simp [Estoque.saida_estoque, Estoque.buscar_produto, hb]⟩

/-- C6 (witness): the concrete ledger holds only "A", so "X" is not found. -/
theorem c6_testemunha :
    (∀ p ∈ estoqueD.produtos, p.nome ≠ "X") ∧
    (estoqueD.entrada_estoque "X" 5 = .error (.produtoNaoEncontrado "X") ∧
      estoqueD.saida_estoque "X" 5 = .error (.produtoNaoEncontrado "X")) :=
  ⟨by decide, c6_nao_encontrado estoqueD "X" 5 (by decide)⟩

/-- C7: for a registered name resolving to product `p`, `verificar_alertas`
returns `true` exactly when `p`'s stock is at most the reorder point; for an
unregistered name it returns `false` instead of raising. -/
theorem c7_verificar_alertas :
    ∀ (e : Estoque) (ponto_pedido : ℤ) (nome : String),
      (∀ p, e.buscar_produto nome = some p →
        (e.verificar_alertas ponto_pedido nome = true ↔
          p.quantidade_estoque ≤ ponto_pedido)) ∧
      (e.buscar_produto nome = none →
        e.verificar_alertas ponto_pedido nome = false) := by
  intro e pp nome
  constructor
  · intro p hb
    simp [Estoque.verificar_alertas, hb]
  · intro hb
    simp [Estoque.verificar_alertas, hb]

/-- C7 (witness): stock 10 against reorder point 320 triggers the alert. -/
theorem c7_testemunha :
    estoqueD.buscar_produto "A" = some produtoA ∧
    (estoqueD.verificar_alertas 320 "A" = true ↔
      produtoA.quantidade_estoque ≤ 320) :=
  ⟨by decide, (c7_verificar_alertas estoqueD 320 "A").1 produtoA (by decide)⟩

/-- C8: a successful `saida_estoque` of `q` followed by `entrada_estoque` of
`q` on the same name restores the ledger to exactly its prior state. -/
theorem c8_saida_entrada_restaura :
    ∀ (e : Estoque) (nome : String) (p : Produto) (q : ℤ),
      e.buscar_produto nome = some p → 0 < q → q ≤ p.quantidade_estoque →
      ∃ e1, e.saida_estoque nome q = .ok e1 ∧ e1.entrada_estoque nome q = .ok e := by
  intro e nome p q hb hq hle
  have hb' : e.produtos.find? (fun x => x.nome == nome) = some p := hb
  refine ⟨⟨e.nome, atualizarPrimeiro e.produtos nome
      (fun x => { x with quantidade_estoque := x.quantidade_estoque - q })⟩, ?_, ?_⟩
  · simp [Estoque.saida_estoque, Estoque.buscar_produto, hb', hle]
  · have hb2 : (atualizarPrimeiro e.produtos nome
        (fun x => { x with quantidade_estoque := x.quantidade_estoque - q })).find?
          (fun x => x.nome == nome) =
        some { p with quantidade_estoque := p.quantidade_estoque - q } := by
      rw [find?_atualizarPrimeiro e.produtos nome
        (fun x => { x with quantidade_estoque := x.quantidade_estoque - q })
        (fun _ => rfl), hb']
      rfl
    simp only [Estoque.entrada_estoque, Estoque.buscar_produto]
    rw [hb2]
    dsimp only
    rw [atualizarPrimeiro_cancel e.produtos nome
      (fun x => { x with quantidade_estoque := x.quantidade_estoque - q })
      (fun x => { x with quantidade_estoque := x.quantidade_estoque + q })
      (fun _ => rfl) (fun x => by cases x; simp)]

/-- C8 (witness): issue 4 then receive 4 on the concrete ledger. -/
theorem c8_testemunha :
    estoqueD.buscar_produto "A" = some produtoA ∧ (0:ℤ) < 4 ∧
    (4:ℤ) ≤ produtoA.quantidade_estoque ∧
    ∃ e1, estoqueD.saida_estoque "A" 4 = .ok e1 ∧
      e1.entrada_estoque "A" 4 = .ok estoqueD :=
  ⟨by decide, by decide, by decide,
    c8_saida_entrada_restaura estoqueD "A" produtoA 4 (by decide) (by decide) (by decide)⟩

/-- C9: the report of an empty registry is the header plus the distinct
"Nenhum produto cadastrado." line, while a non-empty registry is reported
as the header, one line per registered product in registration order (each
line carrying the product's current stock via `Produto.toStr`), and the
footer. -/
theorem c9_relatorio :
    ∀ e : Estoque,
      (e.produtos = [] →
        e.relatorio_estoque =
          ["\n" ++ linhaSeparadora, "RELATÓRIO DE ESTOQUE: " ++ e.nome,
            linhaSeparadora, "Nenhum produto cadastrado."]) ∧
      (e.produtos ≠ [] →
        e.relatorio_estoque =
          ["\n" ++ linhaSeparadora, "RELATÓRIO DE ESTOQUE: " ++ e.nome,
            linhaSeparadora] ++
          e.produtos.map (fun p => "• " ++ p.toStr) ++ [linhaSeparadora ++ "\n"]) := by
  intro e
  constructor
  · intro h
    simp [Estoque.relatorio_estoque, h]
  · intro h
    simp [Estoque.relatorio_estoque, h]

/-- C9 (witness): the report of the concrete one-product ledger. -/
theorem c9_testemunha :
    estoqueD.produtos ≠ [] ∧
    estoqueD.relatorio_estoque =
      ["\n" ++ linhaSeparadora, "RELATÓRIO DE ESTOQUE: " ++ estoqueD.nome,
        linhaSeparadora] ++
      estoqueD.produtos.map (fun p => "• " ++ p.toStr) ++ [linhaSeparadora ++ "\n"] :=
  ⟨by decide, (c9_relatorio estoqueD).2 (by decide)⟩

/-- C10: one `entrada_estoque` or `saida_estoque` call, successful or not,
changes at most the stock count of the first registered product whose name
equals the argument, preserving the display name, every other product, the
target's remaining fields, and the registry's length and order; and
`verificar_alertas` and `relatorio_estoque` change no state at all. -/
theorem c10_moldura :
    ∀ (e : Estoque) (nome : String) (q ponto : ℤ),
      framePreserva e (aplicar e (Op.entrada nome q)) nome ∧
      framePreserva e (aplicar e (Op.saida nome q)) nome ∧
      aplicar e (Op.verificar ponto nome) = e ∧
      aplicar e Op.relatorio = e := by
  intro e nome q pp
  refine ⟨?_, ?_, rfl, rfl⟩
  · simp only [aplicar, Estoque.entrada_estoque, Estoque.buscar_produto]
    rcases atualizarPrimeiro_decomp e.produtos nome
        (fun x => { x with quantidade_estoque := x.quantidade_estoque + q }) with
      ⟨h1, _⟩ | ⟨pre, p0, post, hpre, hp, hfind, hsplit, hupd⟩
    · rw [h1]
      exact ⟨rfl, Or.inl rfl⟩
    · rw [hfind]
      exact ⟨rfl, Or.inr ⟨pre, p0, p0.quantidade_estoque + q, post, hpre, hp, hsplit, hupd⟩⟩
  · simp only [aplicar, Estoque.saida_estoque, Estoque.buscar_produto]
    rcases atualizarPrimeiro_decomp e.produtos nome
        (fun x => { x with quantidade_estoque := x.quantidade_estoque - q }) with
      ⟨h1, _⟩ | ⟨pre, p0, post, hpre, hp, hfind, hsplit, hupd⟩
    · rw [h1]
      exact ⟨rfl, Or.inl rfl⟩
    · rw [hfind]
      dsimp only
      by_cases hle : q ≤ p0.quantidade_estoque
      · rw [if_pos hle]
        exact ⟨rfl, Or.inr ⟨pre, p0, p0.quantidade_estoque - q, post, hpre, hp, hsplit, hupd⟩⟩
      · rw [if_neg hle]
        exact ⟨rfl, Or.inl rfl⟩
